import Mathlib

/-!
Verification of the Halloween-Spooks meta-transaction relay: a shallow
embedding of the relay's admission-control and execution pipeline,
translated from the repository sources:

- src/main.go — the Go implementation: relayHandler, checkRateLimit,
  isProcessed / markProcessed, executeMetaTransaction, waitForReceipt,
  cleanupRoutine;
- src/unnamed/part_002 — the JS implementation: the POST /relay handler
  and its checkRateLimit;
- src/meta-exec-lib/src/index.js — the JS executor (executeForward).

Network-bound operations (keccak hashing performed by the crypto
library, the minted-status probe, the suggested-fee fetch, transaction
submission and receipt polling) are modelled as explicit oracle
parameters, so every pipeline function stays executable and the claims
can be evaluated on concrete inputs.

Identities (addresses), hashes and hex payloads are modelled as the
canonical strings the source code compares; timestamps are integers
(unix seconds in the Go model, milliseconds in the JS model, exactly as
in the sources).
-/

namespace Relay

/-- Forward struct from src/main.go lines 74-83 (the signed
authorization tuple): from, to, value, space, nonce, deadline, dataHash,
caller. Addresses and the 32-byte dataHash are modelled as their
canonical hex strings; value and deadline as integers; nonce as a
natural number (big.Int, printed in decimal by nonce.String()). -/
structure Forward where
  fromAddr : String
  toAddr : String
  value : Int
  space : Nat
  nonce : Nat
  deadline : Int
  dataHash : String
  caller : String
deriving DecidableEq, Repr

/-- RelayRequest from src/main.go lines 86-90: the decoded POST /relay
body holding the forward tuple, the user signature and the encoded
call. -/
structure RelayRequest where
  forward : Forward
  signature : String
  callData : String
deriving DecidableEq, Repr

/-- Server configuration fields consulted by the handler
(src/main.go lines 31-39): target NFT contract, the relayer's own
address, and the fee ceiling MaxGasPrice (100 gwei, line 304). -/
structure Config where
  nftContract : String
  relayerAddress : String
  maxGasPrice : Int
deriving DecidableEq, Repr

/-- Stable error vocabulary of the pipeline, one tag per rejection site
of the handlers (the source sends fixed message strings; the tags here
name those sites). -/
inductive ErrKind
  | MissingFields
  | RateLimited
  | DuplicateRequest
  | InvalidTarget
  | InvalidCaller
  | InvalidCallData
  | HashMismatch
  | Expired
  | ProbeError
  | AlreadyCompleted
  | FeeTooHigh
  | ExecutionFailed
deriving DecidableEq, Repr

/-- Final outcome of one request: the 200 success body (txHash,
blockNumber, gasUsed) or an error response with its HTTP status. -/
inductive Outcome
  | ok (txHash : String) (blockNumber : Nat) (gasUsed : Nat)
  | rejected (status : Nat) (err : ErrKind)
deriving DecidableEq, Repr

/-- Observable pipeline events, used to state ordering properties:
probe = the minted-status query, feeFetch = the suggested-fee fetch,
execCall = entry into the executor, submit = the transaction is sent to
the network, waitConfirm = the confirmation wait, mark = insertion of
the idempotency key into the processed-requests store. -/
inductive Evt
  | probe
  | feeFetch
  | execCall
  | submit
  | waitConfirm
  | mark
deriving DecidableEq, Repr

/-- ASCII lower-casing of one character (hex identities are ASCII, so
this matches what strings.EqualFold and String.toLowerCase do on
them). -/
def lowerChar (c : Char) : Char :=
  if 65 ≤ c.toNat ∧ c.toNat ≤ 90 then Char.ofNat (c.toNat + 32) else c

/-- Boolean string equality (kept as a named function so that proofs
can case on it). -/
def strEq (a b : String) : Bool :=
  a == b

/-- Case-insensitive identity comparison: bytes32Equal in
src/main.go lines 879-881 (strings.EqualFold over the hex forms) and
the toLowerCase() comparisons in src/unnamed/part_002 lines 99 and
108. -/
def eqFold (a b : String) : Bool :=
  a.data.map lowerChar == b.data.map lowerChar

/-- Whether a character is a hexadecimal digit, as accepted by Go's
hex.DecodeString. -/
def isHexDigit (c : Char) : Bool :=
  c.isDigit || ('a' ≤ c && c ≤ 'f') || ('A' ≤ c && c ≤ 'F')

/-- strings.TrimPrefix(s, "0x") from src/main.go line 450, over the
character list of the string. -/
def dropHexPfx : List Char → List Char
  | '0' :: 'x' :: rest => rest
  | l => l

/-- Whether hex.DecodeString succeeds on the callData string after the
0x prefix is trimmed (src/main.go line 450): even length and only hex
digits. -/
def hexDecodes (s : String) : Bool :=
  let t := dropHexPfx s.data
  t.length % 2 == 0 && t.all isHexDigit

/-- Constants from src/main.go lines 127-132: cacheDuration = 5 min,
rateLimitWindow = 1 min, maxRequestsPerWindow = 5, cleanupInterval =
1 min (in seconds where a duration). -/
def cacheDurationSeconds : Int := 300

def rateLimitWindowSeconds : Int := 60

def maxRequestsPerWindow : Nat := 5

def cleanupIntervalSeconds : Int := 60

/-- Per-request idempotency key: requestID := fmt.Sprintf("%s-%s",
userAddress.Hex(), req.Forward.Nonce.String()) from src/main.go
line 416, equally the template string at src/unnamed/part_002
line 89. -/
def requestId (f : Forward) : String :=
  f.fromAddr ++ "-" ++ toString f.nonce

/-- Go server state touched by a request (src/main.go lines 117-125):
the processedRequests map (key to mark-time) and the per-address
rate-limit timestamp lists; both maps are modelled as association
lists. -/
structure ServerState where
  processed : List (String × Int)
  rateReqs : List (String × List Int)
deriving DecidableEq, Repr

/-- Lookup of the per-address timestamp list (a missing map entry reads
as the empty slice in Go). -/
def lookupRate (m : List (String × List Int)) (a : String) : List Int :=
  match m.find? (fun p => p.1 == a) with
  | some p => p.2
  | none => []

/-- Map update for the per-address timestamp list. -/
def setRate (m : List (String × List Int)) (a : String) (l : List Int) :
    List (String × List Int) :=
  (a, l) :: m.filter (fun p => p.1 != a)

/-- checkRateLimit from src/main.go lines 763-786: filter the stored
timestamps to those with now - t < 60, reject when 5 or more remain
(leaving the stored list unwritten), otherwise append now and store.
The returned pair is (admitted?, stored list after the call). -/
def checkRateLimit (requests : List Int) (now : Int) : Bool × List Int :=
  let recentRequests := requests.filter (fun t => now - t < rateLimitWindowSeconds)
  if maxRequestsPerWindow ≤ recentRequests.length then
    (false, requests)
  else
    (true, recentRequests ++ [now])

/-- isProcessed from src/main.go lines 789-795: membership of the key
in the processedRequests map (the stored timestamp is not consulted). -/
def isProcessed (processed : List (String × Int)) (id : String) : Bool :=
  processed.any (fun p => p.1 == id)

/-- markProcessed from src/main.go lines 797-802: record the key with
the current time. -/
def markProcessed (processed : List (String × Int)) (id : String) (now : Int) :
    List (String × Int) :=
  (id, now) :: processed

/-- The processedRequests half of cleanupRoutine from src/main.go
lines 812-819: entries older than cacheDuration (5 minutes) are
deleted, entries at most 5 minutes old survive. -/
def cleanProcessed (processed : List (String × Int)) (now : Int) :
    List (String × Int) :=
  processed.filter (fun p => now - p.2 ≤ cacheDurationSeconds)

/-- Transaction receipt fields consulted by the source: status (0 =
reverted), block number, gas used. -/
structure Receipt where
  status : Nat
  blockNumber : Nat
  gasUsed : Nat
deriving DecidableEq, Repr

/-- Result of the receipt wait: a retrieved receipt, or the
2-minute-context timeout. -/
inductive WaitResult
  | receipt (r : Receipt)
  | timeout
deriving DecidableEq, Repr

/-- Poll interval of waitForReceipt (src/main.go line 756: 2 s). -/
def pollIntervalSeconds : Nat := 2

/-- Context timeout of waitForReceipt (src/main.go line 744: 2 min). -/
def receiptTimeoutSeconds : Nat := 120

/-- Number of 2-second sleeps that fit in the 2-minute context (60). -/
def maxPollSleeps : Nat := receiptTimeoutSeconds / pollIntervalSeconds

/-- Inner loop of waitForReceipt (src/main.go lines 747-759): poll i is
the outcome of the i-th TransactionReceipt call (attempt i happens
2 * i seconds after submission); on a miss the loop sleeps 2 s unless
the context deadline has expired, in which case it returns the timeout
error. fuel counts the sleeps still allowed by the context. -/
def waitForReceiptAux (poll : Nat → Option Receipt) : Nat → Nat → WaitResult
  | 0, i =>
    match poll i with
    | some r => .receipt r
    | none => .timeout
  | fuel + 1, i =>
    match poll i with
    | some r => .receipt r
    | none => waitForReceiptAux poll fuel (i + 1)

/-- waitForReceipt from src/main.go lines 743-760: poll every 2 seconds
under a 2-minute context, so at most 60 sleeps. -/
def waitForReceipt (poll : Nat → Option Receipt) : WaitResult :=
  waitForReceiptAux poll maxPollSleeps 0

/-- Network-side fate of one submission attempt by the Go executor:
sent = none means executeMetaTransaction failed before or at
SendTransaction (ABI packing, relayer nonce, gas price, signing or the
send itself); sent = some h means the transaction with hash h reached
the network and the receipt is governed by poll. -/
structure SendResult where
  sent : Option String
  poll : Nat → Option Receipt

/-- Tail of executeMetaTransaction from src/main.go lines 664-688: send
the transaction, wait for the receipt (waitForReceipt), fail on
timeout, fail with the revert message when receipt.Status = 0, and
otherwise return (hash, block number, gas used). The accompanying
event list records executor entry, submission and the confirmation
wait. -/
def executeMetaTransaction (send : SendResult) :
    Except String (String × Nat × Nat) × List Evt :=
  match send.sent with
  | none => (.error "failed to send transaction", [.execCall])
  | some h =>
    match waitForReceipt send.poll with
    | .timeout =>
        (.error "timeout waiting for transaction receipt", [.execCall, .submit, .waitConfirm])
    | .receipt r =>
        if r.status = 0 then
          (.error "transaction reverted by contract", [.execCall, .submit, .waitConfirm])
        else
          (.ok (h, r.blockNumber, r.gasUsed), [.execCall, .submit, .waitConfirm])

/-- Result of one Go handler run: the HTTP outcome, the server state
after the run, and the observable event trace. -/
structure HandlerResult where
  outcome : Outcome
  state : ServerState
  trace : List Evt
deriving DecidableEq, Repr

/-- relayHandler from src/main.go lines 362-548, gate by gate in source
order: required fields (line 391), rate limit (line 408), duplicate
key (line 418), target contract (line 429), caller (line 440), callData
hex decoding (line 450), keccak dataHash equality (line 463), deadline
(line 479), minted-status probe (line 488; a probe error is a 500, a
positive probe a 400), fee ceiling (lines 504-518; a failed fee fetch
is logged and ignored), then the executor; the key is marked processed
only after executeMetaTransaction returns success (line 532). keccak,
hasMinted, gasPrice and send are the oracles for the network-bound
steps. -/
def relayHandler (cfg : Config) (st : ServerState) (req : RelayRequest) (now : Int)
    (keccak : String → String) (hasMinted : Option Bool) (gasPrice : Option Int)
    (send : SendResult) : HandlerResult :=
  if req.signature == "" || req.callData == "" then
    ⟨.rejected 400 .MissingFields, st, []⟩
  else
    let addr := req.forward.fromAddr
    let rl := checkRateLimit (lookupRate st.rateReqs addr) now
    if !rl.1 then
      ⟨.rejected 429 .RateLimited, st, []⟩
    else
      let st1 : ServerState := { st with rateReqs := setRate st.rateReqs addr rl.2 }
      let id := requestId req.forward
      if isProcessed st1.processed id then
        ⟨.rejected 400 .DuplicateRequest, st1, []⟩
      else if !eqFold req.forward.toAddr cfg.nftContract then
        ⟨.rejected 400 .InvalidTarget, st1, []⟩
      else if !eqFold req.forward.caller cfg.relayerAddress then
        ⟨.rejected 400 .InvalidCaller, st1, []⟩
      else if !hexDecodes req.callData then
        ⟨.rejected 400 .InvalidCallData, st1, []⟩
      else if !strEq (keccak req.callData) req.forward.dataHash then
        ⟨.rejected 400 .HashMismatch, st1, []⟩
      else if req.forward.deadline < now then
        ⟨.rejected 400 .Expired, st1, []⟩
      else
        match hasMinted with
        | none => ⟨.rejected 500 .ProbeError, st1, [.probe]⟩
        | some true => ⟨.rejected 400 .AlreadyCompleted, st1, [.probe]⟩
        | some false =>
          let feeHigh : Bool := match gasPrice with
            | some p => decide (cfg.maxGasPrice < p)
            | none => false
          if feeHigh then
            ⟨.rejected 503 .FeeTooHigh, st1, [.probe, .feeFetch]⟩
          else
            let ex := executeMetaTransaction send
            match ex.1 with
            | .error _ =>
                ⟨.rejected 500 .ExecutionFailed, st1, [.probe, .feeFetch] ++ ex.2⟩
            | .ok (h, bn, gu) =>
                ⟨.ok h bn gu,
                 { st1 with processed := markProcessed st1.processed id now },
                 [.probe, .feeFetch] ++ ex.2 ++ [.mark]⟩

/-- JS server state touched by a request (src/unnamed/part_002
lines 36-43): the processedRequests Set of keys and the rateLimits Map
of per-address millisecond timestamp lists. -/
structure JsState where
  processed : List String
  rateReqs : List (String × List Int)
deriving DecidableEq, Repr

/-- RATE_LIMIT_WINDOW from src/unnamed/part_002 line 42 (60 * 1000
milliseconds). -/
def jsRateLimitWindowMs : Int := 60000

/-- checkRateLimit from src/unnamed/part_002 lines 241-256: filter the
stored timestamps to those with now - t < 60000 ms, reject when 5 or
more remain (without writing the map), otherwise push now and store. -/
def jsCheckRateLimit (requests : List Int) (nowMs : Int) : Bool × List Int :=
  let recentRequests := requests.filter (fun t => nowMs - t < jsRateLimitWindowMs)
  if maxRequestsPerWindow ≤ recentRequests.length then
    (false, requests)
  else
    (true, recentRequests ++ [nowMs])

/-- Network-side fate of the JS executor call (executeForward at
src/unnamed/part_002 line 178): sendOk = none means executeForward
threw (allowlist, gas estimation or sendTransaction failure) before a
transaction existed; sendOk = some h means the transaction with hash h
was sent, and waitReceipt is the receipt that tx.wait() resolves
(an ethers wait() throws when its status is 0). -/
structure JsExec where
  sendOk : Option String
  waitReceipt : Receipt
deriving DecidableEq, Repr

/-- Result of one JS handler run: outcome, state after, event trace. -/
structure JsResult where
  outcome : Outcome
  state : JsState
  trace : List Evt
deriving DecidableEq, Repr

/-- The POST /relay handler from src/unnamed/part_002 lines 61-238,
gate by gate in source order: required fields (line 66), rate limit
(line 80), duplicate key (line 90), target contract (line 99), caller
(line 108), dataHash equality — applied only when forward.dataHash is
truthy, compared after toLowerCase (line 118) —, deadline against
floor(Date.now() / 1000) (line 130), minted-status probe (line 140; a
thrown probe is caught and answered 500), fee fetch (line 151; a
thrown fetch is caught and answered 500) and ceiling (line 152), then
executeForward; on submission the key is added to processedRequests
immediately (line 192), before tx.wait() (line 196), so it stays
marked even when the transaction later reverts. -/
def jsRelayHandler (cfg : Config) (st : JsState) (req : RelayRequest) (nowMs : Int)
    (keccak : String → String) (hasMinted : Option Bool) (gasPrice : Option Int)
    (ex : JsExec) : JsResult :=
  if req.signature == "" || req.callData == "" then
    ⟨.rejected 400 .MissingFields, st, []⟩
  else
    let addr := req.forward.fromAddr
    let rl := jsCheckRateLimit (lookupRate st.rateReqs addr) nowMs
    if !rl.1 then
      ⟨.rejected 429 .RateLimited, st, []⟩
    else
      let st1 : JsState := { st with rateReqs := setRate st.rateReqs addr rl.2 }
      let id := requestId req.forward
      if st1.processed.contains id then
        ⟨.rejected 400 .DuplicateRequest, st1, []⟩
      else if !eqFold req.forward.toAddr cfg.nftContract then
        ⟨.rejected 400 .InvalidTarget, st1, []⟩
      else if !eqFold req.forward.caller cfg.relayerAddress then
        ⟨.rejected 400 .InvalidCaller, st1, []⟩
      else if !strEq req.forward.dataHash "" && !eqFold (keccak req.callData) req.forward.dataHash then
        ⟨.rejected 400 .HashMismatch, st1, []⟩
      else if req.forward.deadline < nowMs / 1000 then
        ⟨.rejected 400 .Expired, st1, []⟩
      else
        match hasMinted with
        | none => ⟨.rejected 500 .ExecutionFailed, st1, [.probe]⟩
        | some true => ⟨.rejected 400 .AlreadyCompleted, st1, [.probe]⟩
        | some false =>
          match gasPrice with
          | none => ⟨.rejected 500 .ExecutionFailed, st1, [.probe, .feeFetch]⟩
          | some p =>
            if cfg.maxGasPrice < p then
              ⟨.rejected 503 .FeeTooHigh, st1, [.probe, .feeFetch]⟩
            else
              match ex.sendOk with
              | none => ⟨.rejected 500 .ExecutionFailed, st1, [.probe, .feeFetch, .execCall]⟩
              | some h =>
                let st2 : JsState := { st1 with processed := st1.processed ++ [id] }
                if ex.waitReceipt.status = 0 then
                  ⟨.rejected 500 .ExecutionFailed, st2,
                   [.probe, .feeFetch, .execCall, .submit, .mark, .waitConfirm]⟩
                else
                  ⟨.ok h ex.waitReceipt.blockNumber ex.waitReceipt.gasUsed, st2,
                   [.probe, .feeFetch, .execCall, .submit, .mark, .waitConfirm]⟩

/-- Gas limit chosen by the Go executor (src/main.go lines 629-645):
the raw estimate plus a 20% buffer computed as estimatedGas * 120 / 100
in uint64 arithmetic, or the default 500000 when EstimateGas itself
fails (estimate = none). -/
def goGasLimit (estimate : Option Nat) : Nat :=
  match estimate with
  | none => 500000
  | some e => e * 120 % 2 ^ 64 / 100

/-- Gas limit chosen by the JS executor (executeForward,
src/meta-exec-lib/src/index.js lines 171-178): the overrides.gasLimit
when given, otherwise the raw provider.estimateGas value; a failed
estimation (estimate = none) propagates as a thrown error (none), with
no margin and no default. -/
def jsGasLimit (overrideGas : Option Nat) (estimate : Option Nat) : Option Nat :=
  match overrideGas with
  | some g => some g
  | none => estimate

/-- Progress of one request through the phases that touch the shared
processedRequests store: start (about to run the duplicate check),
admitted (check passed, gates and executor ahead), executed (the
executor was reached), done (the key has been marked), rejectedDup
(the duplicate check failed). -/
inductive Phase
  | start
  | admitted
  | executed
  | done
  | rejectedDup
deriving DecidableEq, Repr

/-- One concurrent request: its phase and whether it has reached the
executor. -/
structure Thread where
  phase : Phase
  reachedExecutor : Bool
deriving DecidableEq, Repr

/-- Shared state of two concurrent POST /relay submissions carrying the
same (sender, nonce): both request threads plus whether their common
idempotency key is present in the processed-requests store. -/
structure RaceState where
  t1 : Thread
  t2 : Thread
  keyMarked : Bool
deriving DecidableEq, Repr

/-- One atomic action of a request thread against the shared store,
taken directly from the code structure: at .start it performs the
duplicate lookup (isProcessed, src/main.go line 418; Set.has,
src/unnamed/part_002 line 90) — each of these is its own critical
section —, at .admitted it reaches the executor (line 524 / line 178),
and at .executed it performs the separate mark write (markProcessed,
src/main.go line 532; Set.add, src/unnamed/part_002 line 192). No
other access to the store happens between the lookup and the write in
either implementation. -/
def threadStep (t : Thread) (marked : Bool) : Thread × Bool :=
  match t.phase with
  | .start =>
    if marked then ({ t with phase := .rejectedDup }, marked)
    else ({ t with phase := .admitted }, marked)
  | .admitted => ({ phase := .executed, reachedExecutor := true }, marked)
  | .executed => ({ t with phase := .done }, true)
  | _ => (t, marked)

/-- Advance one of the two threads by one atomic action (true picks
the first thread). -/
def raceStep (s : RaceState) (i : Bool) : RaceState :=
  if i then
    let tm := threadStep s.t1 s.keyMarked
    { s with t1 := tm.1, keyMarked := tm.2 }
  else
    let tm := threadStep s.t2 s.keyMarked
    { s with t2 := tm.1, keyMarked := tm.2 }

/-- Run an interleaving of the two requests, given as the list of
thread choices. -/
def runSchedule (s : RaceState) (sched : List Bool) : RaceState :=
  sched.foldl raceStep s

/-- Initial state: both duplicate submissions arriving, key unmarked. -/
def raceInit : RaceState :=
  ⟨⟨.start, false⟩, ⟨.start, false⟩, false⟩

/-- Conjunction of the relayHandler admission gates that precede the
dataHash gate (src/main.go lines 391-455): fields present, rate limit
admitted, key not yet processed, target and caller accepted, callData
hex-decodable. -/
@[reducible]
def passesPreHash (cfg : Config) (st : ServerState) (req : RelayRequest) (now : Int) : Prop :=
  req.signature ≠ "" ∧ req.callData ≠ "" ∧
  (checkRateLimit (lookupRate st.rateReqs req.forward.fromAddr) now).1 = true ∧
  isProcessed st.processed (requestId req.forward) = false ∧
  eqFold req.forward.toAddr cfg.nftContract = true ∧
  eqFold req.forward.caller cfg.relayerAddress = true ∧
  hexDecodes req.callData = true

/-- Conjunction of the relayHandler admission gates that precede the
deadline gate (src/main.go lines 391-470): the pre-hash gates plus the
dataHash equality. -/
@[reducible]
def passesPreDeadline (cfg : Config) (st : ServerState) (req : RelayRequest) (now : Int)
    (keccak : String → String) : Prop :=
  passesPreHash cfg st req now ∧ keccak req.callData = req.forward.dataHash

/-- Conjunction of the JS handler admission gates that precede the
dataHash gate (src/unnamed/part_002 lines 66-114): fields present,
rate limit admitted, key not yet processed, target and caller
accepted. -/
@[reducible]
def jsPassesPreHash (cfg : Config) (st : JsState) (req : RelayRequest) (nowMs : Int) : Prop :=
  req.signature ≠ "" ∧ req.callData ≠ "" ∧
  (jsCheckRateLimit (lookupRate st.rateReqs req.forward.fromAddr) nowMs).1 = true ∧
  st.processed.contains (requestId req.forward) = false ∧
  eqFold req.forward.toAddr cfg.nftContract = true ∧
  eqFold req.forward.caller cfg.relayerAddress = true

/-- Every trace of the Go executor omits the mark event: marking is the
handler's job, after the executor returns (src/main.go line 532). -/
theorem execNoMark (send : SendResult) : Evt.mark ∉ (executeMetaTransaction send).2 := by
  dsimp only [executeMetaTransaction]
  generalize waitForReceipt send.poll = w
  repeat' split
  all_goals simp

/-- When the Go executor returns success its trace is executor entry,
submission, then the confirmation wait. -/
theorem execTraceOk (send : SendResult) (v : String × Nat × Nat)
    (h : (executeMetaTransaction send).1 = .ok v) :
    (executeMetaTransaction send).2 = [Evt.execCall, Evt.submit, Evt.waitConfirm] := by
  revert h
  dsimp only [executeMetaTransaction]
  generalize waitForReceipt send.poll = w
  repeat' split
  all_goals simp

/-- The server state after checkRateLimit has stored the pruned or
extended timestamp list for the sender. -/
def rateBumped (st : ServerState) (addr : String) (now : Int) : ServerState :=
  { st with rateReqs := setRate st.rateReqs addr (checkRateLimit (lookupRate st.rateReqs addr) now).2 }

/-- The JS state after checkRateLimit has stored the pruned or extended
timestamp list for the sender. -/
def jsRateBumped (st : JsState) (addr : String) (nowMs : Int) : JsState :=
  { st with rateReqs := setRate st.rateReqs addr (jsCheckRateLimit (lookupRate st.rateReqs addr) nowMs).2 }

/-- A rejection produced by one of the admission gates that precede the
deadline check: some rejected outcome whose kind is none of the
post-gate kinds. -/
@[reducible]
def gateRejected (o : Outcome) : Prop :=
  ∃ s e, o = Outcome.rejected s e ∧ e ≠ ErrKind.Expired ∧ e ≠ ErrKind.ProbeError ∧
    e ≠ ErrKind.AlreadyCompleted ∧ e ≠ ErrKind.FeeTooHigh ∧ e ≠ ErrKind.ExecutionFailed

/-- The tail of relayHandler (src/main.go lines 472-548) once every
gate up to the dataHash check has passed: deadline check, minted-status
probe, fee ceiling, executor, and the final markProcessed on success.
Stated as its own function so that claims about the post-admission
pipeline can be proved once and transported to relayHandler. -/
def goAfterGates (cfg : Config) (st1 : ServerState) (id : String) (deadline now : Int)
    (hm : Option Bool) (gp : Option Int) (send : SendResult) : HandlerResult :=
  if deadline < now then
    ⟨.rejected 400 .Expired, st1, []⟩
  else
    match hm with
    | none => ⟨.rejected 500 .ProbeError, st1, [.probe]⟩
    | some true => ⟨.rejected 400 .AlreadyCompleted, st1, [.probe]⟩
    | some false =>
      let feeHigh : Bool := match gp with
        | some p => decide (cfg.maxGasPrice < p)
        | none => false
      if feeHigh then
        ⟨.rejected 503 .FeeTooHigh, st1, [.probe, .feeFetch]⟩
      else
        let ex := executeMetaTransaction send
        match ex.1 with
        | .error _ =>
            ⟨.rejected 500 .ExecutionFailed, st1, [.probe, .feeFetch] ++ ex.2⟩
        | .ok (h, bn, gu) =>
            ⟨.ok h bn gu,
             { st1 with processed := markProcessed st1.processed id now },
             [.probe, .feeFetch] ++ ex.2 ++ [.mark]⟩

/-- The tail of the JS handler (src/unnamed/part_002 lines 128-237)
once every gate up to the dataHash check has passed: deadline check,
probe, fee fetch and ceiling, executeForward, the immediate mark, and
the confirmation wait. -/
def jsAfterGates (cfg : Config) (st1 : JsState) (id : String) (deadline nowMs : Int)
    (hm : Option Bool) (gp : Option Int) (ex : JsExec) : JsResult :=
  if deadline < nowMs / 1000 then
    ⟨.rejected 400 .Expired, st1, []⟩
  else
    match hm with
    | none => ⟨.rejected 500 .ExecutionFailed, st1, [.probe]⟩
    | some true => ⟨.rejected 400 .AlreadyCompleted, st1, [.probe]⟩
    | some false =>
      match gp with
      | none => ⟨.rejected 500 .ExecutionFailed, st1, [.probe, .feeFetch]⟩
      | some p =>
        if cfg.maxGasPrice < p then
          ⟨.rejected 503 .FeeTooHigh, st1, [.probe, .feeFetch]⟩
        else
          match ex.sendOk with
          | none => ⟨.rejected 500 .ExecutionFailed, st1, [.probe, .feeFetch, .execCall]⟩
          | some h =>
            let st2 : JsState := { st1 with processed := st1.processed ++ [id] }
            if ex.waitReceipt.status = 0 then
              ⟨.rejected 500 .ExecutionFailed, st2,
               [.probe, .feeFetch, .execCall, .submit, .mark, .waitConfirm]⟩
            else
              ⟨.ok h ex.waitReceipt.blockNumber ex.waitReceipt.gasUsed, st2,
               [.probe, .feeFetch, .execCall, .submit, .mark, .waitConfirm]⟩

/-- The JS handler reaches its deadline gate iff the pre-hash gates
pass and the dataHash gate does not fire (dataHash absent, or the
hashes agree case-insensitively). -/
@[reducible]
def jsPassesPreDeadline (cfg : Config) (st : JsState) (req : RelayRequest) (nowMs : Int)
    (keccak : String → String) : Prop :=
  jsPassesPreHash cfg st req nowMs ∧
  (req.forward.dataHash = "" ∨ eqFold (keccak req.callData) req.forward.dataHash = true)

/-- When some pre-deadline gate of relayHandler fails, the run stops
with an empty trace, an untouched processed store, and a gate
rejection. -/
theorem relayHandlerGateFail (cfg : Config) (st : ServerState) (req : RelayRequest)
    (now : Int) (keccak : String → String) (hm : Option Bool) (gp : Option Int)
    (send : SendResult) (hn : ¬ passesPreDeadline cfg st req now keccak) :
    (relayHandler cfg st req now keccak hm gp send).trace = [] ∧
    (relayHandler cfg st req now keccak hm gp send).state.processed = st.processed ∧
    gateRejected (relayHandler cfg st req now keccak hm gp send).outcome := by
  dsimp only [relayHandler]
  generalize executeMetaTransaction send = E
  by_cases c1 : req.signature = ""
  · exact ⟨by simp [c1], by simp [c1], 400, .MissingFields, by simp [c1],
      by decide, by decide, by decide, by decide, by decide⟩
  by_cases c2 : req.callData = ""
  · exact ⟨by simp [c1, c2], by simp [c1, c2], 400, .MissingFields, by simp [c1, c2],
      by decide, by decide, by decide, by decide, by decide⟩
  by_cases c3 : (checkRateLimit (lookupRate st.rateReqs req.forward.fromAddr) now).1 = true
  case neg =>
    exact ⟨by simp [c1, c2, c3], by simp [c1, c2, c3], 429, .RateLimited,
      by simp [c1, c2, c3], by decide, by decide, by decide, by decide, by decide⟩
  by_cases c4 : isProcessed st.processed (requestId req.forward) = true
  · exact ⟨by simp [c1, c2, c3, c4], by simp [c1, c2, c3, c4], 400, .DuplicateRequest,
      by simp [c1, c2, c3, c4], by decide, by decide, by decide, by decide, by decide⟩
  by_cases c5 : eqFold req.forward.toAddr cfg.nftContract = true
  case neg =>
    exact ⟨by simp [c1, c2, c3, c4, c5], by simp [c1, c2, c3, c4, c5], 400, .InvalidTarget,
      by simp [c1, c2, c3, c4, c5], by decide, by decide, by decide, by decide, by decide⟩
  by_cases c6 : eqFold req.forward.caller cfg.relayerAddress = true
  case neg =>
    exact ⟨by simp [c1, c2, c3, c4, c5, c6], by simp [c1, c2, c3, c4, c5, c6], 400,
      .InvalidCaller, by simp [c1, c2, c3, c4, c5, c6],
      by decide, by decide, by decide, by decide, by decide⟩
  by_cases c7 : hexDecodes req.callData = true
  case neg =>
    exact ⟨by simp [c1, c2, c3, c4, c5, c6, c7], by simp [c1, c2, c3, c4, c5, c6, c7], 400,
      .InvalidCallData, by simp [c1, c2, c3, c4, c5, c6, c7],
      by decide, by decide, by decide, by decide, by decide⟩
  by_cases c8 : keccak req.callData = req.forward.dataHash
  case pos =>
    exact absurd ⟨⟨c1, c2, c3, by simpa using c4, c5, c6, c7⟩, c8⟩ hn
  exact ⟨by simp [strEq, c1, c2, c3, c4, c5, c6, c7, c8],
    by simp [strEq, c1, c2, c3, c4, c5, c6, c7, c8], 400, .HashMismatch,
    by simp [strEq, c1, c2, c3, c4, c5, c6, c7, c8],
    by decide, by decide, by decide, by decide, by decide⟩

/-- When every pre-deadline gate of relayHandler passes, the run equals
the post-admission tail applied to the rate-updated state and the
request's idempotency key. -/
theorem relayHandlerPasses (cfg : Config) (st : ServerState) (req : RelayRequest)
    (now : Int) (keccak : String → String) (hm : Option Bool) (gp : Option Int)
    (send : SendResult) (hp : passesPreDeadline cfg st req now keccak) :
    relayHandler cfg st req now keccak hm gp send =
      goAfterGates cfg (rateBumped st req.forward.fromAddr now)
        (requestId req.forward) req.forward.deadline now hm gp send := by
  obtain ⟨⟨h1, h2, h3, h4, h5, h6, h6x⟩, h7⟩ := hp
  dsimp only [relayHandler, goAfterGates, rateBumped]
  generalize executeMetaTransaction send = E
  simp [strEq, h1, h2, h3, h4, h5, h6, h6x, h7]

/-- When some pre-deadline gate of the JS handler fails, the run stops
with an empty trace, an untouched processed store, and a gate
rejection. -/
theorem jsRelayHandlerGateFail (cfg : Config) (st : JsState) (req : RelayRequest)
    (nowMs : Int) (keccak : String → String) (hm : Option Bool) (gp : Option Int)
    (ex : JsExec) (hn : ¬ jsPassesPreDeadline cfg st req nowMs keccak) :
    (jsRelayHandler cfg st req nowMs keccak hm gp ex).trace = [] ∧
    (jsRelayHandler cfg st req nowMs keccak hm gp ex).state.processed = st.processed ∧
    gateRejected (jsRelayHandler cfg st req nowMs keccak hm gp ex).outcome := by
  dsimp only [jsRelayHandler]
  by_cases c1 : req.signature = ""
  · exact ⟨by simp [c1], by simp [c1], 400, .MissingFields, by simp [c1],
      by decide, by decide, by decide, by decide, by decide⟩
  by_cases c2 : req.callData = ""
  · exact ⟨by simp [c1, c2], by simp [c1, c2], 400, .MissingFields, by simp [c1, c2],
      by decide, by decide, by decide, by decide, by decide⟩
  by_cases c3 : (jsCheckRateLimit (lookupRate st.rateReqs req.forward.fromAddr) nowMs).1 = true
  case neg =>
    exact ⟨by simp [c1, c2, c3], by simp [c1, c2, c3], 429, .RateLimited,
      by simp [c1, c2, c3], by decide, by decide, by decide, by decide, by decide⟩
  by_cases c4 : requestId req.forward ∈ st.processed
  · exact ⟨by simp [c1, c2, c3, c4], by simp [c1, c2, c3, c4], 400, .DuplicateRequest,
      by simp [c1, c2, c3, c4], by decide, by decide, by decide, by decide, by decide⟩
  by_cases c5 : eqFold req.forward.toAddr cfg.nftContract = true
  case neg =>
    exact ⟨by simp [c1, c2, c3, c4, c5], by simp [c1, c2, c3, c4, c5], 400, .InvalidTarget,
      by simp [c1, c2, c3, c4, c5], by decide, by decide, by decide, by decide, by decide⟩
  by_cases c6 : eqFold req.forward.caller cfg.relayerAddress = true
  case neg =>
    exact ⟨by simp [c1, c2, c3, c4, c5, c6], by simp [c1, c2, c3, c4, c5, c6], 400,
      .InvalidCaller, by simp [c1, c2, c3, c4, c5, c6],
      by decide, by decide, by decide, by decide, by decide⟩
  by_cases c7 : req.forward.dataHash = ""
  case pos =>
    exact absurd ⟨⟨c1, c2, c3, by simpa using c4, c5, c6⟩, Or.inl c7⟩ hn
  by_cases c8 : eqFold (keccak req.callData) req.forward.dataHash = true
  case pos =>
    exact absurd ⟨⟨c1, c2, c3, by simpa using c4, c5, c6⟩, Or.inr c8⟩ hn
  exact ⟨by simp [strEq, c1, c2, c3, c4, c5, c6, c7, c8],
    by simp [strEq, c1, c2, c3, c4, c5, c6, c7, c8], 400, .HashMismatch,
    by simp [strEq, c1, c2, c3, c4, c5, c6, c7, c8],
    by decide, by decide, by decide, by decide, by decide⟩

/-- When every pre-deadline gate of the JS handler passes, the run
equals the JS post-admission tail applied to the rate-updated state and
the request's idempotency key. -/
theorem jsRelayHandlerPasses (cfg : Config) (st : JsState) (req : RelayRequest)
    (nowMs : Int) (keccak : String → String) (hm : Option Bool) (gp : Option Int)
    (ex : JsExec) (hp : jsPassesPreDeadline cfg st req nowMs keccak) :
    jsRelayHandler cfg st req nowMs keccak hm gp ex =
      jsAfterGates cfg (jsRateBumped st req.forward.fromAddr nowMs)
        (requestId req.forward) req.forward.deadline nowMs hm gp ex := by
  obtain ⟨⟨h1, h2, h3, h4, h5, h6⟩, h7⟩ := hp
  have h4m : requestId req.forward ∉ st.processed := by simpa using h4
  dsimp only [jsRelayHandler, jsAfterGates, jsRateBumped]
  rcases h7 with h7 | h7 <;> simp [strEq, h1, h2, h3, h4m, h5, h6, h7]

/-- A successful post-admission run of the Go tail stores exactly the
idempotency key (markProcessed) on top of the incoming state. -/
theorem goAfterGatesOkState (cfg : Config) (st1 : ServerState) (id : String)
    (deadline now : Int) (hm : Option Bool) (gp : Option Int) (send : SendResult)
    (h : String) (bn gu : Nat)
    (hok : (goAfterGates cfg st1 id deadline now hm gp send).outcome = .ok h bn gu) :
    (goAfterGates cfg st1 id deadline now hm gp send).state.processed =
      markProcessed st1.processed id now := by
  revert hok
  dsimp only [goAfterGates]
  generalize executeMetaTransaction send = E
  repeat' split
  all_goals intro hok
  all_goals first | rfl | simp_all

/-- A rejected post-admission run of the Go tail leaves the processed
store untouched. -/
theorem goAfterGatesRejState (cfg : Config) (st1 : ServerState) (id : String)
    (deadline now : Int) (hm : Option Bool) (gp : Option Int) (send : SendResult)
    (s : Nat) (e : ErrKind)
    (hrej : (goAfterGates cfg st1 id deadline now hm gp send).outcome = .rejected s e) :
    (goAfterGates cfg st1 id deadline now hm gp send).state.processed = st1.processed := by
  revert hrej
  dsimp only [goAfterGates]
  generalize executeMetaTransaction send = E
  repeat' split
  all_goals intro hrej
  all_goals first | rfl | simp_all

/-- In the Go tail the mark event appears only in the successful run,
whose trace is probe, fee fetch, executor entry, submission,
confirmation wait, and only then the mark. -/
theorem goAfterGatesMarkTrace (cfg : Config) (st1 : ServerState) (id : String)
    (deadline now : Int) (hm : Option Bool) (gp : Option Int) (send : SendResult)
    (hmem : Evt.mark ∈ (goAfterGates cfg st1 id deadline now hm gp send).trace) :
    (goAfterGates cfg st1 id deadline now hm gp send).trace =
      [Evt.probe, Evt.feeFetch, Evt.execCall, Evt.submit, Evt.waitConfirm, Evt.mark] := by
  have hok := execTraceOk send
  have hnm := execNoMark send
  revert hmem
  dsimp only [goAfterGates]
  generalize hE : executeMetaTransaction send = E
  rw [hE] at hok hnm
  repeat' split
  all_goals intro hmem
  all_goals simp_all

/-- In the JS tail the mark event appears only in runs that submitted,
whose trace is probe, fee fetch, executor entry, submission, the mark,
and only then the confirmation wait. -/
theorem jsAfterGatesMarkTrace (cfg : Config) (st1 : JsState) (id : String)
    (deadline nowMs : Int) (hm : Option Bool) (gp : Option Int) (ex : JsExec)
    (hmem : Evt.mark ∈ (jsAfterGates cfg st1 id deadline nowMs hm gp ex).trace) :
    (jsAfterGates cfg st1 id deadline nowMs hm gp ex).trace =
      [Evt.probe, Evt.feeFetch, Evt.execCall, Evt.submit, Evt.mark, Evt.waitConfirm] := by
  revert hmem
  dsimp only [jsAfterGates]
  repeat' split
  all_goals intro hmem
  all_goals simp_all

/-- When the JS executor throws before submitting, the JS tail leaves
the processed store untouched. -/
theorem jsAfterGatesNoSendState (cfg : Config) (st1 : JsState) (id : String)
    (deadline nowMs : Int) (hm : Option Bool) (gp : Option Int) (ex : JsExec)
    (hnone : ex.sendOk = none) :
    (jsAfterGates cfg st1 id deadline nowMs hm gp ex).state.processed = st1.processed := by
  dsimp only [jsAfterGates]
  repeat' split
  all_goals simp_all

/-- Fixture: a relay configuration. -/
def cfgW : Config := ⟨"0xnft", "0xrelay", 100⟩

/-- Fixture: empty Go server state. -/
def stW : ServerState := ⟨[], []⟩

/-- Fixture: empty JS server state. -/
def stJ : JsState := ⟨[], []⟩

/-- Fixture: a well-formed forward tuple addressed to cfgW. -/
def fwdW : Forward := ⟨"0xuser", "0xnft", 0, 0, 1, 9999, "0xhash", "0xrelay"⟩

/-- Fixture: a well-formed request around fwdW. -/
def reqW : RelayRequest := ⟨fwdW, "0xsig", "0x1234"⟩

/-- Fixture: the same request already expired (deadline 50). -/
def reqExpW : RelayRequest := ⟨{ fwdW with deadline := 50 }, "0xsig", "0x1234"⟩

/-- Fixture: hash oracle agreeing with fwdW.dataHash. -/
def kW : String → String := fun _ => "0xhash"

/-- Fixture: a submission that succeeds with an immediate receipt. -/
def sendW : SendResult := ⟨some "0xtx", fun _ => some ⟨1, 10, 21000⟩⟩

/-- Fixture: a JS executor run that submits and confirms. -/
def exW : JsExec := ⟨some "0xtx", ⟨1, 10, 21000⟩⟩

/-- Fixture: a JS executor run that submits and then reverts. -/
def exRevW : JsExec := ⟨some "0xtx", ⟨0, 10, 21000⟩⟩

/-- C5: the per-sender rate limiter first prunes timestamps outside the
60-second window, rejects exactly when 5 or more remain (leaving the
stored list unchanged), otherwise appends the current timestamp and
admits; five in-window timestamps reject the sixth request, a fully
elapsed window admits, and a rate-limit rejection surfaces as
HTTP 429 RateLimited from the handler. -/
theorem c5_rate_limiter :
    (∀ reqs now, (checkRateLimit reqs now).1 =
      decide ((reqs.filter (fun t => now - t < rateLimitWindowSeconds)).length < maxRequestsPerWindow)) ∧
    (∀ reqs now, (reqs.filter (fun t => now - t < rateLimitWindowSeconds)).length < maxRequestsPerWindow →
      (checkRateLimit reqs now).2 = reqs.filter (fun t => now - t < rateLimitWindowSeconds) ++ [now]) ∧
    (∀ reqs now, maxRequestsPerWindow ≤ (reqs.filter (fun t => now - t < rateLimitWindowSeconds)).length →
      (checkRateLimit reqs now).2 = reqs) ∧
    (∀ reqs now, reqs.length = 5 → (∀ t ∈ reqs, now - t < rateLimitWindowSeconds) →
      (checkRateLimit reqs now).1 = false) ∧
    (∀ reqs now, (∀ t ∈ reqs, rateLimitWindowSeconds ≤ now - t) →
      (checkRateLimit reqs now).1 = true) ∧
    (∀ cfg st req now keccak hm gp send, req.signature ≠ "" → req.callData ≠ "" →
      (checkRateLimit (lookupRate st.rateReqs req.forward.fromAddr) now).1 = false →
      (relayHandler cfg st req now keccak hm gp send).outcome = .rejected 429 .RateLimited) := by
  refine ⟨?_, ?_, ?_, ?_, ?_, ?_⟩
  · intro reqs now
    dsimp only [checkRateLimit]
    split <;> simp_all
  · intro reqs now hlt
    dsimp only [checkRateLimit]
    rw [if_neg (by omega)]
  · intro reqs now hge
    dsimp only [checkRateLimit]
    rw [if_pos (by omega)]
  · intro reqs now hlen hall
    have hself : reqs.filter (fun t => now - t < rateLimitWindowSeconds) = reqs := by
      rw [List.filter_eq_self]
      intro a ha
      simpa using hall a ha
    dsimp only [checkRateLimit]
    simp [hself, hlen, maxRequestsPerWindow]
  · intro reqs now hall
    have hnil : reqs.filter (fun t => now - t < rateLimitWindowSeconds) = [] := by
      rw [List.filter_eq_nil_iff]
      intro a ha
      simpa using Int.not_lt.mpr (hall a ha)
    dsimp only [checkRateLimit]
    simp [hnil, maxRequestsPerWindow]
  · intro cfg st req now keccak hm gp send h1 h2 hrl
    dsimp only [relayHandler]
    generalize executeMetaTransaction send = E
    simp [h1, h2, hrl]

/-- C5 witness: five admissions at time 0 fill the window, the sixth
request at time 30 is rejected (and masked as HTTP 429 by the
handler), and a request at time 60 is admitted again. -/
theorem c5_rate_limiter_w :
    (checkRateLimit [0, 0, 0, 0, 0] 30).1 = false ∧
    (checkRateLimit [0, 0, 0, 0, 0] 60).1 = true ∧
    (relayHandler cfgW ⟨[], [("0xuser", [0, 0, 0, 0, 0])]⟩ reqW 30 kW (some false) (some 50)
      sendW).outcome = .rejected 429 .RateLimited :=
  ⟨c5_rate_limiter.2.2.2.1 [0, 0, 0, 0, 0] 30 (by decide) (by decide),
   c5_rate_limiter.2.2.2.2.1 [0, 0, 0, 0, 0] 60 (by decide),
   c5_rate_limiter.2.2.2.2.2 cfgW ⟨[], [("0xuser", [0, 0, 0, 0, 0])]⟩ reqW 30 kW (some false)
     (some 50) sendW (by decide) (by decide) (by decide)⟩

/-- C6: a request whose deadline lies strictly before the current
admission time is rejected as Expired (HTTP 400) without the
minted-status probe or the executor ever running, provided the earlier
gates pass; and whenever the current time is at most the deadline the
deadline gate passes (the outcome is never Expired). -/
theorem c6_deadline_gate (cfg : Config) (st : ServerState) (req : RelayRequest) (now : Int)
    (keccak : String → String) (hm : Option Bool) (gp : Option Int) (send : SendResult) :
    (req.forward.deadline < now →
      Evt.probe ∉ (relayHandler cfg st req now keccak hm gp send).trace ∧
      Evt.execCall ∉ (relayHandler cfg st req now keccak hm gp send).trace) ∧
    (req.forward.deadline < now → passesPreDeadline cfg st req now keccak →
      (relayHandler cfg st req now keccak hm gp send).outcome = .rejected 400 .Expired) ∧
    (now ≤ req.forward.deadline →
      (relayHandler cfg st req now keccak hm gp send).outcome ≠ .rejected 400 .Expired) := by
  refine ⟨fun h => ?_, fun h hp => ?_, fun h => ?_⟩
  · dsimp only [relayHandler]
    generalize executeMetaTransaction send = E
    by_cases hK : keccak req.callData = req.forward.dataHash <;>
      by_cases hHex : hexDecodes req.callData = true <;>
      simp [strEq, hK, hHex] <;> repeat' split
    all_goals constructor <;> simp
  · obtain ⟨⟨h1, h2, h3, h4, h5, h6, h6x⟩, h7⟩ := hp
    dsimp only [relayHandler]
    generalize executeMetaTransaction send = E
    simp [strEq, h1, h2, h3, h4, h5, h6, h6x, h7, h]
  · dsimp only [relayHandler]
    generalize executeMetaTransaction send = E
    by_cases hK : keccak req.callData = req.forward.dataHash <;> simp [strEq, hK] <;>
      repeat' split
    all_goals first | omega | simp

/-- C6 witness: the expired fixture (deadline 50, now 100) is rejected
Expired with no probe in its trace, and the fresh fixture (deadline
9999) is not rejected Expired. -/
theorem c6_deadline_gate_w :
    Evt.probe ∉ (relayHandler cfgW stW reqExpW 100 kW (some false) (some 50) sendW).trace ∧
    (relayHandler cfgW stW reqExpW 100 kW (some false) (some 50) sendW).outcome =
      .rejected 400 .Expired ∧
    (relayHandler cfgW stW reqW 100 kW (some false) (some 50) sendW).outcome ≠
      .rejected 400 .Expired :=
  ⟨((c6_deadline_gate cfgW stW reqExpW 100 kW (some false) (some 50) sendW).1 (by decide)).1,
   (c6_deadline_gate cfgW stW reqExpW 100 kW (some false) (some 50) sendW).2.1 (by decide)
     (by decide),
   (c6_deadline_gate cfgW stW reqW 100 kW (some false) (some 50) sendW).2.2 (by decide)⟩

/-- C7: when the fetched suggested fee exceeds the configured ceiling,
neither implementation ever enters the executor or submits a
transaction, and whenever the fee fetch is reached the request is
rejected FeeTooHigh with HTTP 503. -/
theorem c7_fee_ceiling (p : Int) :
    (∀ cfg st req now keccak hm send, cfg.maxGasPrice < p →
      Evt.execCall ∉ (relayHandler cfg st req now keccak hm (some p) send).trace ∧
      Evt.submit ∉ (relayHandler cfg st req now keccak hm (some p) send).trace ∧
      (Evt.feeFetch ∈ (relayHandler cfg st req now keccak hm (some p) send).trace →
        (relayHandler cfg st req now keccak hm (some p) send).outcome =
          .rejected 503 .FeeTooHigh)) ∧
    (∀ cfg st req nowMs keccak hm ex, cfg.maxGasPrice < p →
      Evt.execCall ∉ (jsRelayHandler cfg st req nowMs keccak hm (some p) ex).trace ∧
      Evt.submit ∉ (jsRelayHandler cfg st req nowMs keccak hm (some p) ex).trace ∧
      (Evt.feeFetch ∈ (jsRelayHandler cfg st req nowMs keccak hm (some p) ex).trace →
        (jsRelayHandler cfg st req nowMs keccak hm (some p) ex).outcome =
          .rejected 503 .FeeTooHigh)) := by
  constructor
  · intro cfg st req now keccak hm send hp
    dsimp only [relayHandler]
    generalize executeMetaTransaction send = E
    by_cases hK : keccak req.callData = req.forward.dataHash <;> simp [strEq, hK] <;>
      repeat' split
    all_goals simp_all
  · intro cfg st req nowMs keccak hm ex hp
    dsimp only [jsRelayHandler]
    repeat' split
    all_goals simp_all

/-- C7 witness: with the suggested fee 1000 above the ceiling 100, the
valid fixture is rejected 503 FeeTooHigh in both implementations and
no executor entry appears in either trace. -/
theorem c7_fee_ceiling_w :
    Evt.execCall ∉ (relayHandler cfgW stW reqW 100 kW (some false) (some 1000) sendW).trace ∧
    (relayHandler cfgW stW reqW 100 kW (some false) (some 1000) sendW).outcome =
      .rejected 503 .FeeTooHigh ∧
    (jsRelayHandler cfgW stJ reqW 100000 kW (some false) (some 1000) exW).outcome =
      .rejected 503 .FeeTooHigh :=
  ⟨((c7_fee_ceiling 1000).1 cfgW stW reqW 100 kW (some false) sendW (by decide)).1,
   ((c7_fee_ceiling 1000).1 cfgW stW reqW 100 kW (some false) sendW (by decide)).2.2 (by decide),
   ((c7_fee_ceiling 1000).2 cfgW stJ reqW 100000 kW (some false) exW (by decide)).2.2 (by decide)⟩

/-- Fixture: a request whose dataHash disagrees with the hash oracle. -/
def reqBadW : RelayRequest := ⟨{ fwdW with dataHash := "0xother" }, "0xsig", "0x1234"⟩

/-- Fixture: a request with an empty (absent) dataHash field. -/
def reqNoHashW : RelayRequest := ⟨{ fwdW with dataHash := "" }, "0xsig", "0x1234"⟩

/-- Fixture: a submission attempt that fails before reaching the
network. -/
def sendFailW : SendResult := ⟨none, fun _ => none⟩

/-- Fixture: a submission whose receipt never arrives. -/
def sendTimeoutW : SendResult := ⟨some "0xtx", fun _ => none⟩

/-- Fixture: a JS executor call that throws before submitting. -/
def exFailW : JsExec := ⟨none, ⟨1, 10, 21000⟩⟩

/-- C4: the duplicate-detection key is literally from ++ "-" ++ nonce; a
successful run records exactly that key in the processed store; the
cleanup sweep keeps the record for the whole 5-minute retention window;
and a replay that finds the key present (in either implementation,
having passed the field and rate-limit gates that come first) is
rejected 400 DuplicateRequest. -/
theorem c4_duplicate_replay :
    (∀ f : Forward, requestId f = f.fromAddr ++ "-" ++ toString f.nonce) ∧
    (∀ cfg st req now keccak hm gp send h bn gu,
      (relayHandler cfg st req now keccak hm gp send).outcome = .ok h bn gu →
      (relayHandler cfg st req now keccak hm gp send).state.processed =
        markProcessed st.processed (requestId req.forward) now) ∧
    (∀ (processed : List (String × Int)) id ts now2, (id, ts) ∈ processed →
      now2 - ts ≤ cacheDurationSeconds →
      isProcessed (cleanProcessed processed now2) id = true) ∧
    (∀ cfg st req now keccak hm gp send, req.signature ≠ "" → req.callData ≠ "" →
      (checkRateLimit (lookupRate st.rateReqs req.forward.fromAddr) now).1 = true →
      isProcessed st.processed (requestId req.forward) = true →
      (relayHandler cfg st req now keccak hm gp send).outcome =
        .rejected 400 .DuplicateRequest) ∧
    (∀ cfg st req nowMs keccak hm gp ex, req.signature ≠ "" → req.callData ≠ "" →
      (jsCheckRateLimit (lookupRate st.rateReqs req.forward.fromAddr) nowMs).1 = true →
      st.processed.contains (requestId req.forward) = true →
      (jsRelayHandler cfg st req nowMs keccak hm gp ex).outcome =
        .rejected 400 .DuplicateRequest) := by
  refine ⟨fun f => rfl, ?_, ?_, ?_, ?_⟩
  · intro cfg st req now keccak hm gp send h bn gu hok
    by_cases hp : passesPreDeadline cfg st req now keccak
    · rw [relayHandlerPasses cfg st req now keccak hm gp send hp] at hok ⊢
      exact goAfterGatesOkState cfg _ _ _ now hm gp send h bn gu hok
    · obtain ⟨-, -, s, e, hout, -, -, -, -, -⟩ :=
        relayHandlerGateFail cfg st req now keccak hm gp send hp
      rw [hok] at hout
      exact absurd hout (by simp)
  · intro processed id ts now2 hmem hfresh
    simp only [isProcessed, cleanProcessed, List.any_eq_true]
    refine ⟨(id, ts), List.mem_filter.2 ⟨hmem, by simpa using hfresh⟩, by simp⟩
  · intro cfg st req now keccak hm gp send h1 h2 h3 hdup
    dsimp only [relayHandler]
    generalize executeMetaTransaction send = E
    simp [h1, h2, h3, hdup]
  · intro cfg st req nowMs keccak hm gp ex h1 h2 h3 hdup
    have hdm : requestId req.forward ∈ st.processed := by simpa using hdup
    dsimp only [jsRelayHandler]
    simp [h1, h2, h3, hdm]

/-- C4 witness: requestId of the fixture is "0xuser-1"; a successful
run from the empty state stores it; the sweep keeps it 250 seconds
later; and replays against a state holding the key are rejected 400
DuplicateRequest in both implementations. -/
theorem c4_duplicate_replay_w :
    requestId fwdW = "0xuser-1" ∧
    (relayHandler cfgW stW reqW 100 kW (some false) (some 50) sendW).state.processed =
      markProcessed stW.processed (requestId fwdW) 100 ∧
    isProcessed (cleanProcessed [("0xuser-1", 100)] 350) "0xuser-1" = true ∧
    (relayHandler cfgW ⟨[("0xuser-1", 100)], []⟩ reqW 130 kW (some false) (some 50)
      sendW).outcome = .rejected 400 .DuplicateRequest ∧
    (jsRelayHandler cfgW ⟨["0xuser-1"], []⟩ reqW 130000 kW (some false) (some 50)
      exW).outcome = .rejected 400 .DuplicateRequest :=
  ⟨c4_duplicate_replay.1 fwdW,
   c4_duplicate_replay.2.1 cfgW stW reqW 100 kW (some false) (some 50) sendW "0xtx" 10 21000
     (by decide),
   c4_duplicate_replay.2.2.1 [("0xuser-1", 100)] "0xuser-1" 100 350 (by decide) (by decide),
   c4_duplicate_replay.2.2.2.1 cfgW ⟨[("0xuser-1", 100)], []⟩ reqW 130 kW (some false)
     (some 50) sendW (by decide) (by decide) (by decide) (by decide),
   c4_duplicate_replay.2.2.2.2 cfgW ⟨["0xuser-1"], []⟩ reqW 130000 kW (some false) (some 50)
     exW (by decide) (by decide) (by decide) (by decide)⟩

/-- C2 counterexample: a concrete successful JS run submits first and
marks afterwards (the mark index in the trace is strictly larger than
the submit index), and the concrete successful Go run marks only after
the confirmation wait — refuting the claim that the pending mark
precedes submission. -/
theorem c2_mark_after_submit_cex :
    (jsRelayHandler cfgW stJ reqW 100000 kW (some false) (some 50) exW).trace =
      [Evt.probe, Evt.feeFetch, Evt.execCall, Evt.submit, Evt.mark, Evt.waitConfirm] ∧
    (jsRelayHandler cfgW stJ reqW 100000 kW (some false) (some 50) exW).trace.indexOf
        Evt.submit <
      (jsRelayHandler cfgW stJ reqW 100000 kW (some false) (some 50) exW).trace.indexOf
        Evt.mark ∧
    (jsRelayHandler cfgW stJ reqW 100000 kW (some false) (some 50) exW).outcome =
      .ok "0xtx" 10 21000 ∧
    (relayHandler cfgW stW reqW 100 kW (some false) (some 50) sendW).trace =
      [Evt.probe, Evt.feeFetch, Evt.execCall, Evt.submit, Evt.waitConfirm, Evt.mark] := by
  refine ⟨by decide, by decide, by decide, by decide⟩

/-- C2 amended: in every run that marks the idempotency key, the JS
implementation marks immediately after submission and before the
confirmation wait, and the Go implementation marks only after the
confirmation wait completes; in neither implementation does the mark
precede submission. -/
theorem c2_mark_order :
    (∀ cfg st req nowMs keccak hm gp ex,
      Evt.mark ∈ (jsRelayHandler cfg st req nowMs keccak hm gp ex).trace →
      (jsRelayHandler cfg st req nowMs keccak hm gp ex).trace =
        [Evt.probe, Evt.feeFetch, Evt.execCall, Evt.submit, Evt.mark, Evt.waitConfirm]) ∧
    (∀ cfg st req now keccak hm gp send,
      Evt.mark ∈ (relayHandler cfg st req now keccak hm gp send).trace →
      (relayHandler cfg st req now keccak hm gp send).trace =
        [Evt.probe, Evt.feeFetch, Evt.execCall, Evt.submit, Evt.waitConfirm, Evt.mark]) := by
  constructor
  · intro cfg st req nowMs keccak hm gp ex hmem
    by_cases hp : jsPassesPreDeadline cfg st req nowMs keccak
    · rw [jsRelayHandlerPasses cfg st req nowMs keccak hm gp ex hp] at hmem ⊢
      exact jsAfterGatesMarkTrace cfg _ _ _ nowMs hm gp ex hmem
    · obtain ⟨htr, -, -⟩ := jsRelayHandlerGateFail cfg st req nowMs keccak hm gp ex hp
      rw [htr] at hmem
      simp at hmem
  · intro cfg st req now keccak hm gp send hmem
    by_cases hp : passesPreDeadline cfg st req now keccak
    · rw [relayHandlerPasses cfg st req now keccak hm gp send hp] at hmem ⊢
      exact goAfterGatesMarkTrace cfg _ _ _ now hm gp send hmem
    · obtain ⟨htr, -, -⟩ := relayHandlerGateFail cfg st req now keccak hm gp send hp
      rw [htr] at hmem
      simp at hmem

/-- C2 amended witness: the concrete marking runs of both
implementations have the stated traces. -/
theorem c2_mark_order_w :
    (jsRelayHandler cfgW stJ reqW 100000 kW (some false) (some 50) exW).trace =
      [Evt.probe, Evt.feeFetch, Evt.execCall, Evt.submit, Evt.mark, Evt.waitConfirm] ∧
    (relayHandler cfgW stW reqW 100 kW (some false) (some 50) sendW).trace =
      [Evt.probe, Evt.feeFetch, Evt.execCall, Evt.submit, Evt.waitConfirm, Evt.mark] :=
  ⟨c2_mark_order.1 cfgW stJ reqW 100000 kW (some false) (some 50) exW (by decide),
   c2_mark_order.2 cfgW stW reqW 100 kW (some false) (some 50) sendW (by decide)⟩

/-- C3 counterexample: a concrete JS request whose dataHash field is
empty, and whose callData hashes to a different value, passes the hash
gate, reaches the executor and succeeds — refuting the claim that every
hash mismatch is rejected with HashMismatch before execution. -/
theorem c3_js_skips_hash_check_cex :
    kW reqNoHashW.callData ≠ reqNoHashW.forward.dataHash ∧
    (jsRelayHandler cfgW stJ reqNoHashW 100000 kW (some false) (some 50) exW).outcome =
      .ok "0xtx" 10 21000 ∧
    Evt.execCall ∈ (jsRelayHandler cfgW stJ reqNoHashW 100000 kW (some false) (some 50)
      exW).trace ∧
    (jsRelayHandler cfgW stJ reqNoHashW 100000 kW (some false) (some 50) exW).outcome ≠
      .rejected 400 .HashMismatch := by
  refine ⟨by decide, by decide, by decide, by decide⟩

/-- C3 amended: in the Go implementation a request whose callData hash
differs from dataHash never reaches the executor and never succeeds,
and is rejected 400 HashMismatch whenever the earlier gates pass; the
JS implementation guarantees the same only when the dataHash field is
non-empty (the check compares case-insensitively and is skipped for an
absent dataHash). -/
theorem c3_hash_mismatch_gate :
    (∀ cfg st req now keccak hm gp send, keccak req.callData ≠ req.forward.dataHash →
      Evt.execCall ∉ (relayHandler cfg st req now keccak hm gp send).trace ∧
      (∀ h bn gu, (relayHandler cfg st req now keccak hm gp send).outcome ≠ .ok h bn gu) ∧
      (passesPreHash cfg st req now →
        (relayHandler cfg st req now keccak hm gp send).outcome =
          .rejected 400 .HashMismatch)) ∧
    (∀ cfg st req nowMs keccak hm gp ex, req.forward.dataHash ≠ "" →
      eqFold (keccak req.callData) req.forward.dataHash = false →
      Evt.execCall ∉ (jsRelayHandler cfg st req nowMs keccak hm gp ex).trace ∧
      (jsPassesPreHash cfg st req nowMs →
        (jsRelayHandler cfg st req nowMs keccak hm gp ex).outcome =
          .rejected 400 .HashMismatch)) := by
  constructor
  · intro cfg st req now keccak hm gp send hK
    have hnp : ¬ passesPreDeadline cfg st req now keccak := fun hp => hK hp.2
    obtain ⟨htr, -, s, e, hout, -, -, -, -, -⟩ :=
      relayHandlerGateFail cfg st req now keccak hm gp send hnp
    refine ⟨?_, ?_, ?_⟩
    · rw [htr]
      simp
    · intro h bn gu hcon
      rw [hcon] at hout
      exact absurd hout (by simp)
    · intro hp
      obtain ⟨h1, h2, h3, h4, h5, h6, h6x⟩ := hp
      dsimp only [relayHandler]
      generalize executeMetaTransaction send = E
      simp [strEq, h1, h2, h3, h4, h5, h6, h6x, hK]
  · intro cfg st req nowMs keccak hm gp ex hDH hFold
    have hnp : ¬ jsPassesPreDeadline cfg st req nowMs keccak := fun hp =>
      hp.2.elim hDH (fun hf => by rw [hf] at hFold; cases hFold)
    obtain ⟨htr, -, -⟩ := jsRelayHandlerGateFail cfg st req nowMs keccak hm gp ex hnp
    constructor
    · rw [htr]
      simp
    · intro hp
      obtain ⟨h1, h2, h3, h4, h5, h6⟩ := hp
      have h4m : requestId req.forward ∉ st.processed := by simpa using h4
      dsimp only [jsRelayHandler]
      simp [strEq, h1, h2, h3, h4m, h5, h6, hDH, hFold]

/-- C3 amended witness: the Go fixture with a mismatching dataHash is
rejected 400 HashMismatch with no executor entry, and the JS fixture
with a non-empty mismatching dataHash never reaches the executor. -/
theorem c3_hash_mismatch_gate_w :
    Evt.execCall ∉ (relayHandler cfgW stW reqBadW 100 kW (some false) (some 50) sendW).trace ∧
    (relayHandler cfgW stW reqBadW 100 kW (some false) (some 50) sendW).outcome =
      .rejected 400 .HashMismatch ∧
    Evt.execCall ∉ (jsRelayHandler cfgW stJ reqBadW 100000 kW (some false) (some 50)
      exW).trace :=
  ⟨(c3_hash_mismatch_gate.1 cfgW stW reqBadW 100 kW (some false) (some 50) sendW
      (by decide)).1,
   (c3_hash_mismatch_gate.1 cfgW stW reqBadW 100 kW (some false) (some 50) sendW
      (by decide)).2.2 (by decide),
   (c3_hash_mismatch_gate.2 cfgW stJ reqBadW 100000 kW (some false) (some 50) exW
      (by decide) (by decide)).1⟩

/-- C10 counterexample: a concrete JS run whose transaction is
submitted and then reverts answers 500, yet leaves the (from, nonce)
key in the processed store (it was empty before), so an identical
resubmission within the window is rejected as a duplicate — refuting
the claim that the processed state is unchanged on every execution
failure. -/
theorem c10_js_marks_on_revert_cex :
    (jsRelayHandler cfgW stJ reqW 100000 kW (some false) (some 50) exRevW).outcome =
      .rejected 500 .ExecutionFailed ∧
    (jsRelayHandler cfgW stJ reqW 100000 kW (some false) (some 50)
      exRevW).state.processed.contains (requestId fwdW) = true ∧
    stJ.processed.contains (requestId fwdW) = false ∧
    (jsRelayHandler cfgW
      (jsRelayHandler cfgW stJ reqW 100000 kW (some false) (some 50) exRevW).state
      reqW 130000 kW (some false) (some 50) exW).outcome =
      .rejected 400 .DuplicateRequest := by
  refine ⟨by decide, by decide, by decide, by decide⟩

/-- C10 amended: in the Go implementation every rejected outcome (in
particular every execution failure or revert) leaves the processed
store exactly as it was, so a fresh key stays absent and a resubmission
is not seen as a duplicate; the JS implementation guarantees this only
when the executor throws before submitting — once submitted, the key is
marked even if the transaction later reverts. -/
theorem c10_no_mark_on_failure :
    (∀ cfg st req now keccak hm gp send s e,
      (relayHandler cfg st req now keccak hm gp send).outcome = .rejected s e →
      (relayHandler cfg st req now keccak hm gp send).state.processed = st.processed) ∧
    (∀ cfg st req nowMs keccak hm gp ex, ex.sendOk = none →
      (jsRelayHandler cfg st req nowMs keccak hm gp ex).state.processed = st.processed) := by
  constructor
  · intro cfg st req now keccak hm gp send s e hrej
    by_cases hp : passesPreDeadline cfg st req now keccak
    · rw [relayHandlerPasses cfg st req now keccak hm gp send hp] at hrej ⊢
      exact goAfterGatesRejState cfg _ _ _ now hm gp send s e hrej
    · exact (relayHandlerGateFail cfg st req now keccak hm gp send hp).2.1
  · intro cfg st req nowMs keccak hm gp ex hnone
    by_cases hp : jsPassesPreDeadline cfg st req nowMs keccak
    · rw [jsRelayHandlerPasses cfg st req nowMs keccak hm gp ex hp]
      exact jsAfterGatesNoSendState cfg _ _ _ nowMs hm gp ex hnone
    · exact (jsRelayHandlerGateFail cfg st req nowMs keccak hm gp ex hp).2.1

/-- C10 amended witness: a Go run whose submission fails answers 500
and leaves the empty processed store empty, and a JS run whose executor
throws before submission does the same. -/
theorem c10_no_mark_on_failure_w :
    (relayHandler cfgW stW reqW 100 kW (some false) (some 50) sendFailW).state.processed =
      stW.processed ∧
    (jsRelayHandler cfgW stJ reqW 100000 kW (some false) (some 50) exFailW).state.processed =
      stJ.processed :=
  ⟨c10_no_mark_on_failure.1 cfgW stW reqW 100 kW (some false) (some 50) sendFailW 500
      .ExecutionFailed (by decide),
   c10_no_mark_on_failure.2 cfgW stJ reqW 100000 kW (some false) (some 50) exFailW rfl⟩

/-- C8 counterexample: the JS executor submits with the raw gas
estimate (1000 stays 1000, not 1000 * 120 / 100 = 1200) and a failed
estimation propagates as an error instead of the 500000 default —
refuting the claim that every submitted transaction uses the buffered
estimate with that fallback. -/
theorem c8_js_gas_limit_cex :
    jsGasLimit none (some 1000) = some 1000 ∧
    goGasLimit (some 1000) = 1200 ∧
    jsGasLimit none (some 1000) ≠ some (goGasLimit (some 1000)) ∧
    jsGasLimit none none = none := by
  refine ⟨rfl, by decide, by decide, rfl⟩

/-- C8 amended: the Go executor uses the raw estimate increased by 20%
(estimate * 120 / 100 in uint64 arithmetic) and falls back to the
default 500000 when estimation fails; the JS executor passes the
caller's override or the raw estimate unchanged, with no margin and no
default. -/
theorem c8_gas_limit :
    goGasLimit none = 500000 ∧
    (∀ e, e * 120 < 2 ^ 64 → goGasLimit (some e) = e * 120 / 100) ∧
    (∀ g oe, jsGasLimit (some g) oe = some g) ∧
    (∀ e, jsGasLimit none (some e) = some e) ∧
    jsGasLimit none none = none := by
  refine ⟨rfl, ?_, fun g oe => rfl, fun e => rfl, rfl⟩
  intro e he
  have he2 : e * 120 < 18446744073709551616 := by simpa using he
  simp [goGasLimit, Nat.mod_eq_of_lt he2]

/-- C8 amended witness: at estimate 1000 the Go gas limit is 1200. -/
theorem c8_gas_limit_w : goGasLimit (some 1000) = 1000 * 120 / 100 :=
  c8_gas_limit.2.1 1000 (by decide)

/-- If every poll the loop can reach misses, the wait ends in the
timeout result. -/
theorem waitAuxNone (poll : Nat → Option Receipt) :
    ∀ fuel i, (∀ k, k ≤ fuel → poll (i + k) = none) →
      waitForReceiptAux poll fuel i = .timeout := by
  intro fuel
  induction fuel with
  | zero =>
    intro i hall
    have h0 := hall 0 (Nat.le_refl 0)
    simp only [Nat.add_zero] at h0
    simp [waitForReceiptAux, h0]
  | succ n ih =>
    intro i hall
    have h0 := hall 0 (Nat.zero_le _)
    simp only [Nat.add_zero] at h0
    have hrest : ∀ k, k ≤ n → poll (i + 1 + k) = none := by
      intro k hk
      have := hall (k + 1) (by omega)
      simpa [Nat.add_assoc, Nat.add_comm 1 k] using this
    simp [waitForReceiptAux, h0, ih (i + 1) hrest]

/-- The wait returns the first receipt the polls deliver. -/
theorem waitAuxFirst (poll : Nat → Option Receipt) :
    ∀ fuel i j r, j ≤ fuel → (∀ k, k < j → poll (i + k) = none) → poll (i + j) = some r →
      waitForReceiptAux poll fuel i = .receipt r := by
  intro fuel
  induction fuel with
  | zero =>
    intro i j r hj hmiss hhit
    interval_cases j
    simp only [Nat.add_zero] at hhit
    simp [waitForReceiptAux, hhit]
  | succ n ih =>
    intro i j r hj hmiss hhit
    cases j with
    | zero =>
      simp only [Nat.add_zero] at hhit
      simp [waitForReceiptAux, hhit]
    | succ m =>
      have h0 := hmiss 0 (Nat.zero_lt_succ m)
      simp only [Nat.add_zero] at h0
      have hmiss2 : ∀ k, k < m → poll (i + 1 + k) = none := by
        intro k hk
        have := hmiss (k + 1) (by omega)
        simpa [Nat.add_assoc, Nat.add_comm 1 k] using this
      have hhit2 : poll (i + 1 + m) = some r := by
        simpa [Nat.add_assoc, Nat.add_comm 1 m] using hhit
      simp [waitForReceiptAux, h0, ih (i + 1) m r (by omega) hmiss2 hhit2]

/-- State of the JS confirmation wait: still pending, or finished with
the retrieved receipt. The type has no timeout constructor because the
JS wait has none. -/
inductive JsWaitState
  | waiting
  | finished (r : Receipt)
deriving DecidableEq, Repr

/-- The JS confirmation wait as the relay performs it
(src/unnamed/part_002 line 196): a bare `await tx.wait()` with no
timeout argument and no poll-interval configuration of its own, so it
resolves only when the network delivers a receipt. Run against the
same receipt stream as the Go wait: after n polls it has returned the
first receipt delivered, or it is still waiting. -/
def jsWait (poll : Nat → Option Receipt) : Nat → JsWaitState
  | 0 => .waiting
  | n + 1 =>
    match jsWait poll n with
    | .finished r => .finished r
    | .waiting =>
      match poll n with
      | some r => .finished r
      | none => .waiting

/-- With no receipt delivered, the JS wait is still pending after any
number of polls. -/
theorem jsWaitNone (poll : Nat → Option Receipt) :
    ∀ n, (∀ i, i < n → poll i = none) → jsWait poll n = .waiting := by
  intro n
  induction n with
  | zero => intro hmiss; rfl
  | succ m ih =>
    intro hmiss
    have hw := ih (fun i hi => hmiss i (by omega))
    have hp := hmiss m (by omega)
    simp [jsWait, hw, hp]

/-- The JS wait returns the first receipt the stream delivers. -/
theorem jsWaitFirst (poll : Nat → Option Receipt) :
    ∀ n j r, j < n → (∀ i, i < j → poll i = none) → poll j = some r →
      jsWait poll n = .finished r := by
  intro n
  induction n with
  | zero => intro j r hj _ _; exact (Nat.not_lt_zero j hj).elim
  | succ m ih =>
    intro j r hj hmiss hhit
    rcases Nat.lt_succ_iff_lt_or_eq.mp hj with hlt | heq
    · have := ih j r hlt hmiss hhit
      simp [jsWait, this]
    · subst heq
      have hw := jsWaitNone poll j hmiss
      simp [jsWait, hw, hhit]

set_option maxRecDepth 4000 in
/-- C9 counterexample: against a receipt stream that never answers, the
Go wait terminates with its timeout result, but the JS confirmation
wait — the wait actually used for a transaction submitted by the JS
implementation — is still pending after 61 polls (the full 2-minute
span at the claimed 2-second cadence) and still pending after 1000,
refuting the claim that every submitted transaction's confirmation wait
terminates with a timeout outcome after at most 2 minutes. -/
theorem c9_js_wait_never_times_out_cex :
    waitForReceipt (fun _ => none) = .timeout ∧
    jsWait (fun _ => none) 61 = .waiting ∧
    jsWait (fun _ => none) 1000 = .waiting := by
  refine ⟨by decide, by decide, by decide⟩

/-- C9 amended: the Go confirmation wait polls every 2 seconds under a
2-minute context (60 sleep slots), so when no poll through the last
slot finds a receipt it terminates with the timeout result; when some
poll is the first to deliver a receipt the wait returns exactly that
receipt; and the executor classifies the three ends distinctly —
timeout and revert (receipt status 0) as the corresponding errors, any
other receipt as the confirmed success carrying block number and gas
used. The JS confirmation wait, by contrast, has no poll cadence and
no timeout of its own: with no receipt it is still pending after any
number of polls, and when a receipt arrives it returns the first one —
it distinguishes only confirmed and reverted. -/
theorem c9_receipt_wait :
    (pollIntervalSeconds = 2 ∧ receiptTimeoutSeconds = 120 ∧
      maxPollSleeps * pollIntervalSeconds = receiptTimeoutSeconds) ∧
    (∀ poll : Nat → Option Receipt, (∀ i, i ≤ maxPollSleeps → poll i = none) →
      waitForReceipt poll = .timeout) ∧
    (∀ (poll : Nat → Option Receipt) j r, j ≤ maxPollSleeps →
      (∀ i, i < j → poll i = none) → poll j = some r →
      waitForReceipt poll = .receipt r) ∧
    (∀ send : SendResult, ∀ h : String, send.sent = some h →
      (waitForReceipt send.poll = .timeout →
        (executeMetaTransaction send).1 = .error "timeout waiting for transaction receipt") ∧
      (∀ r, waitForReceipt send.poll = .receipt r → r.status = 0 →
        (executeMetaTransaction send).1 = .error "transaction reverted by contract") ∧
      (∀ r, waitForReceipt send.poll = .receipt r → r.status ≠ 0 →
        (executeMetaTransaction send).1 = .ok (h, r.blockNumber, r.gasUsed))) ∧
    (∀ (poll : Nat → Option Receipt) (n : Nat), (∀ i, i < n → poll i = none) →
      jsWait poll n = .waiting) ∧
    (∀ (poll : Nat → Option Receipt) (n j : Nat) (r : Receipt), j < n →
      (∀ i, i < j → poll i = none) → poll j = some r →
      jsWait poll n = .finished r) := by
  refine ⟨⟨rfl, rfl, rfl⟩, ?_, ?_, ?_, jsWaitNone, jsWaitFirst⟩
  · intro poll hall
    exact waitAuxNone poll maxPollSleeps 0 (fun k hk => by simpa using hall k hk)
  · intro poll j r hj hmiss hhit
    exact waitAuxFirst poll maxPollSleeps 0 j r hj (fun k hk => by simpa using hmiss k hk)
      (by simpa using hhit)
  · intro send h hs
    refine ⟨?_, ?_, ?_⟩
    · intro hw
      dsimp only [executeMetaTransaction]
      rw [hs, hw]
    · intro r hw h0
      dsimp only [executeMetaTransaction]
      rw [hs, hw]
      simp [h0]
    · intro r hw h0
      dsimp only [executeMetaTransaction]
      rw [hs, hw]
      simp [h0]

/-- C9 witness: with polls that never answer, the Go wait times out and
the executor reports the timeout error, while the JS wait is still
pending after the 2-minute span; with an immediate receipt of status 1
the Go executor confirms with that receipt's block number and gas used
and the JS wait finishes with the same receipt. -/
theorem c9_receipt_wait_w :
    waitForReceipt (fun _ => none) = .timeout ∧
    (executeMetaTransaction sendTimeoutW).1 =
      .error "timeout waiting for transaction receipt" ∧
    (executeMetaTransaction sendW).1 = .ok ("0xtx", 10, 21000) ∧
    jsWait (fun _ => none) 61 = .waiting ∧
    jsWait (fun _ => some ⟨1, 10, 21000⟩) 5 = .finished ⟨1, 10, 21000⟩ :=
  ⟨c9_receipt_wait.2.1 (fun _ => none) (fun i _ => rfl),
   (c9_receipt_wait.2.2.2.1 sendTimeoutW "0xtx" rfl).1 (by decide),
   (c9_receipt_wait.2.2.2.1 sendW "0xtx" rfl).2.2 ⟨1, 10, 21000⟩ (by decide) (by decide),
   c9_receipt_wait.2.2.2.2.1 (fun _ => none) 61 (fun i _ => rfl),
   c9_receipt_wait.2.2.2.2.2 (fun _ => some ⟨1, 10, 21000⟩) 5 0 ⟨1, 10, 21000⟩ (by decide)
     (fun i hi => absurd hi (Nat.not_lt_zero i)) rfl⟩

/-- C1: the duplicate check and the processed mark are separate atomic
actions with the whole execution between them, so the interleaving in
which both concurrent submissions of the same (sender, nonce) run their
duplicate checks before either marks lets both pass admission and reach
the executor, with neither receiving the DuplicateRequest rejection —
the pair does not behave as one atomic test-and-set. A fully sequential
schedule, by contrast, admits exactly one: the second submission is
rejected as a duplicate and never reaches the executor. -/
theorem c1_duplicate_race_not_atomic :
    (runSchedule raceInit [true, false, true, true, false, false]).t1.reachedExecutor = true ∧
    (runSchedule raceInit [true, false, true, true, false, false]).t2.reachedExecutor = true ∧
    (runSchedule raceInit [true, false, true, true, false, false]).t1.phase ≠ .rejectedDup ∧
    (runSchedule raceInit [true, false, true, true, false, false]).t2.phase ≠ .rejectedDup ∧
    (runSchedule raceInit [true, true, true, false]).t1.reachedExecutor = true ∧
    (runSchedule raceInit [true, true, true, false]).t2.phase = .rejectedDup ∧
    (runSchedule raceInit [true, true, true, false]).t2.reachedExecutor = false := by
  refine ⟨by decide, by decide, by decide, by decide, by decide, by decide, by decide⟩

end Relay
